import Mathlib

/-!
# HSSChatting client (static/script.js): session state synchroniser

A shallow embedding of the browser script.  JavaScript values that come out of
`JSON.parse` are modelled by `JVal`; the three global maps (`messages`,
`avatars`, `users`) are association lists keyed by the string form of the
property key; the sidebar (`usersDiv`) is the list of its buttons.

Modelling conventions
* numbers are integers written in decimal (ids and counters);
* two values produced by different `JSON.parse` calls are never the same
  reference, so `===` on arrays and objects is `false`;
* the maps hold own properties only; they are exact on the keys `plainKey`
  admits (no member name inherited from `Object.prototype`, numbers that are
  safe integers), and the statements about a variable key say so;
* an exception is a result `Res.threw` carrying the state reached so far;
* purely presentational attributes (labels, initials, badge text, highlight,
  the rendered message list, the settings dialog) are left out; what is kept
  of a button is what the script reads back: `dataset.id`, `dataset.unread`,
  the value captured by its click closure and whether it holds an avatar image;
* `ws.send` is modelled by the list of frames handed to it (the socket is
  taken to be open, so the call itself does not throw).
-/

namespace HSSChat

/-! ## JavaScript values -/

/-- A JavaScript value as produced by `JSON.parse`, plus `undefined` (what
reading a missing property yields).  The fields of an object are its own
properties; a key is looked up at its first occurrence. -/
inductive JVal where
  | undefined
  | null
  | bool (b : Bool)
  | num (n : Int)
  | str (s : String)
  | arr (items : List JVal)
  | obj (fields : List (String × JVal))

/-- ToBoolean. -/
def truthy : JVal → Bool
  | .undefined => false
  | .null => false
  | .bool b => b
  | .num n => n != 0
  | .str s => s != ""
  | .arr _ => true
  | .obj _ => true

/-- The operator `a || b`. -/
def orElse (a b : JVal) : JVal := if truthy a then a else b

/-- Strict equality `a === b` between values of different parses. -/
def strictEq : JVal → JVal → Bool
  | .undefined, .undefined => true
  | .null, .null => true
  | .bool a, .bool b => a == b
  | .num a, .num b => a == b
  | .str a, .str b => a == b
  | _, _ => false

/-- Test for `null` or `undefined` (reading a property of these throws). -/
def isNullish : JVal → Bool
  | .undefined => true
  | .null => true
  | _ => false

/-- Test for a string value. -/
def isStr : JVal → Bool
  | .str _ => true
  | _ => false

mutual
/-- ToString, which is also the property key a value is coerced to.  Exact
for integers of magnitude up to 2^53 - 1 (see `safeNums`); a larger number
prints differently in the script. -/
def jsToString : JVal → String
  | .undefined => "undefined"
  | .null => "null"
  | .bool b => if b then "true" else "false"
  | .num n => toString n
  | .str s => s
  | .arr items => joinItems items
  | .obj _ => "[object Object]"
termination_by structural v => v
/-- The method `Array.prototype.join` with the default separator. -/
def joinItems : List JVal → String
  | [] => ""
  | v :: rest =>
    (match v with
      | .undefined => ""
      | .null => ""
      | _ => jsToString v) ++
    (match rest with
      | [] => ""
      | _ => "," ++ joinItems rest)
termination_by structural l => l
end

/-- Lookup of an own property in a field list.  It agrees with the
script's `m[key]` for every key outside `inheritedNames`; for those the
script reads the member of `Object.prototype` instead of `undefined`. -/
def mapGet : List (String × JVal) → String → JVal
  | [], _ => .undefined
  | (k, v) :: rest, key => if k = key then v else mapGet rest key

/-- Assignment `m[key] = v`: overwrite in place or add at the end.  It
agrees with the script for every key but `__proto__`, whose assignment goes
through a setter and creates no own property. -/
def mapSet : List (String × JVal) → String → JVal → List (String × JVal)
  | [], key, v => [(key, v)]
  | (k, w) :: rest, key, v => if k = key then (k, v) :: rest else (k, w) :: mapSet rest key v

/-- Test `key in m` for own properties. -/
def mapHas : List (String × JVal) → String → Bool
  | [], _ => false
  | (k, _) :: rest, key => if k = key then true else mapHas rest key

/-- Property read `v.name` on a non-nullish value, for the field names the
script uses (none of them exists on arrays, strings, numbers or booleans). -/
def getProp (v : JVal) (name : String) : JVal :=
  match v with
  | .obj fields => mapGet fields name
  | _ => .undefined

/-! ## Session state -/

/-- A button of the sidebar `usersDiv`. -/
structure Button where
  /-- The value captured by the click closure (`other` or `id`). -/
  chan : JVal
  /-- The attribute `dataset.id`. -/
  dataId : String
  /-- The attribute `dataset.unread`, absent until first written. -/
  unread : Option Nat
  /-- Whether an `img.avatar-img` child is present. -/
  hasImg : Bool

/-- The mutable state the script closes over. -/
structure State where
  nick : String
  myName : JVal
  currentChannel : JVal
  messages : List (String × JVal)
  avatars : List (String × JVal)
  users : List (String × JVal)
  myId : JVal
  sidebar : List Button
  /-- Source of the visible own avatar image; `none` when hidden. -/
  meAvatar : Option String
  /-- The entry `hss_nick` of localStorage. -/
  storedNick : Option String
  /-- The entry `hss_avatar` of localStorage. -/
  storedAvatar : Option String
  msgInput : String
  /-- Frames handed to `ws.send`, oldest first. -/
  sent : List JVal
  /-- Arguments of the calls of `renderChannel`, oldest first. -/
  renders : List JVal

/-- Outcome of a block of statements: normal completion or an exception,
each with the state reached. -/
inductive Res where
  | ok (s : State)
  | threw (s : State)

/-- The state carried by an outcome. -/
def Res.state : Res → State
  | .ok s => s
  | .threw s => s

/-- Sequencing: the continuation runs only after normal completion. -/
def Res.andThen (r : Res) (f : State → Res) : Res :=
  match r with
  | .ok s => f s
  | .threw s => .threw s

/-- A localStorage read: a string or `null`. -/
def storedVal : Option String → JVal
  | some v => .str v
  | none => .null

/-- Script start-up (lines 10-31): nickname choice, empty maps, cached avatar. -/
def init (storedNick storedAvatar prompted : Option String) : State :=
  let chosen := orElse (storedVal storedNick) (storedVal prompted)
  let nick := if truthy chosen then jsToString chosen else "Gast"
  { nick := nick
    myName := .str nick
    currentChannel := .str "all"
    messages := [("all", .arr [])]
    avatars := []
    users := []
    myId := .null
    sidebar := []
    meAvatar := if truthy (storedVal storedAvatar) then storedAvatar else none
    storedNick := storedNick
    storedAvatar := storedAvatar
    msgInput := ""
    sent := []
    renders := [] }

/-- The function `setMeAvatar`. -/
def setMeAvatar (s : State) (url : JVal) : State :=
  if truthy url then { s with meAvatar := some (jsToString url) }
  else { s with meAvatar := none }

/-- Whether the body of `renderChannel` throws: the stored list is not an
array (`list.forEach` is not a function) or holds a nullish element
(`m.user`). -/
def renderThrows (s : State) (channel : JVal) : Bool :=
  let stored := mapGet s.messages (jsToString channel)
  if truthy stored then
    match stored with
    | .arr items => items.any isNullish
    | _ => true
  else false

/-- The function `renderChannel`, reduced to the fact that it was called
and to whether it throws. -/
def renderChannel (s : State) (channel : JVal) : Res :=
  let s1 := { s with renders := s.renders ++ [channel] }
  if renderThrows s channel then .threw s1 else .ok s1

/-- The function `addMessageTo`. -/
def addMessageTo (s : State) (channel msg : JVal) : Res :=
  let key := jsToString channel
  let cur := orElse (mapGet s.messages key) (.arr [])
  let s1 := { s with messages := mapSet s.messages key cur }
  match cur with
  | .arr items => .ok { s1 with messages := mapSet s1.messages key (.arr (items ++ [msg])) }
  | _ => .threw s1

/-- Index of the first button satisfying `p` (the method `Array.prototype.find`). -/
def findBtn (p : Button → Bool) : List Button → Option Nat
  | [] => none
  | b :: rest => if p b then some 0 else (findBtn p rest).map (· + 1)

/-- Apply `f` to the button at index `i`. -/
def modifyAt (f : Button → Button) : Nat → List Button → List Button
  | _, [] => []
  | 0, b :: rest => f b :: rest
  | i + 1, b :: rest => b :: modifyAt f i rest

/-- Whether `(name || '').slice(0,2).toUpperCase()` throws: the value is
truthy and not a string. -/
def initialsThrow (name : JVal) : Bool := truthy name && !isStr name

/-- The check `b.dataset && b.dataset.id === v`. -/
def btnMatches (v : JVal) (b : Button) : Bool := strictEq (.str b.dataId) v

/-- The channel key of a private message (line 99). -/
def otherOf (myId data : JVal) : JVal :=
  if strictEq (getProp data "user_id") myId then getProp data "to" else getProp data "user_id"

/-- The unread increment of lines 134-138 on the button at index `i`. -/
def bumpUnread (s : State) (other : JVal) (i : Nat) : State :=
  if strictEq s.currentChannel other then s
  else { s with sidebar := modifyAt (fun b => { b with unread := some (b.unread.getD 0 + 1) }) i s.sidebar }

/-- Lines 104-132: find or create the sidebar button of `other`; returns the
outcome together with the index of `userBtn`. -/
def ensureButton (s : State) (other data : JVal) : Res × Nat :=
  let key := jsToString other
  let otherName :=
    orElse (getProp data "to_user") (orElse (getProp data "user") (orElse (mapGet s.users key) other))
  let avatarUrl := mapGet s.avatars key
  match findBtn (btnMatches other) s.sidebar with
  | none =>
    let i := s.sidebar.length
    if truthy avatarUrl then
      (.ok { s with sidebar := s.sidebar ++ [{ chan := other, dataId := key, unread := none, hasImg := true }] }, i)
    else if initialsThrow otherName then (.threw s, i)
    else
      (.ok { s with sidebar := s.sidebar ++ [{ chan := other, dataId := key, unread := none, hasImg := false }] }, i)
  | some i =>
    let hasImg := s.sidebar[i]?.any (·.hasImg)
    if truthy avatarUrl && !hasImg then
      (.ok { s with sidebar := modifyAt (fun b => { b with hasImg := true }) i s.sidebar }, i)
    else if !truthy avatarUrl && hasImg then
      let s1 := { s with sidebar := modifyAt (fun b => { b with hasImg := false }) i s.sidebar }
      if initialsThrow otherName then (.threw s1, i) else (.ok s1, i)
    else (.ok s, i)

/-- The private branch of the message handler (lines 97-139). -/
def onPrivateMessage (s : State) (data : JVal) : Res :=
  let other := otherOf s.myId data
  if strictEq other s.myId then .ok s
  else
    (addMessageTo s other data).andThen fun s1 =>
      let r := ensureButton s1 other data
      r.1.andThen fun s2 =>
        let s3 := bumpUnread s2 other r.2
        if strictEq s3.currentChannel other then renderChannel s3 s3.currentChannel else .ok s3

/-- The public branch of the message handler (lines 141-143). -/
def onPublicMessage (s : State) (data : JVal) : Res :=
  (addMessageTo s (.str "all") data).andThen fun s1 =>
    if strictEq s1.currentChannel (.str "all") then renderChannel s1 (.str "all") else .ok s1

/-- One iteration of `data.users.forEach` (lines 148-184). -/
def userListItem (s : State) (item : JVal) : Res :=
  if isNullish item then .threw s
  else
    let id := getProp item "id"
    let u := orElse (getProp item "user") (.str "")
    let avatar := orElse (getProp item "avatar") .null
    let s1 := { s with users := mapSet s.users (jsToString id) u
                       avatars := mapSet s.avatars (jsToString id) avatar }
    if strictEq id s1.myId then
      if truthy avatar then
        .ok { setMeAvatar s1 avatar with storedAvatar := some (jsToString avatar) }
      else .ok s1
    else
      match findBtn (btnMatches id) s1.sidebar with
      | some i =>
        let hasImg := s1.sidebar[i]?.any (·.hasImg)
        if truthy avatar && !hasImg then
          .ok { s1 with sidebar := modifyAt (fun b => { b with hasImg := true }) i s1.sidebar }
        else if !truthy avatar && hasImg then
          let s2 := { s1 with sidebar := modifyAt (fun b => { b with hasImg := false }) i s1.sidebar }
          if initialsThrow u then .threw s2 else .ok s2
        else .ok s1
      | none =>
        if truthy avatar then
          .ok { s1 with sidebar := s1.sidebar ++ [{ chan := id, dataId := jsToString id, unread := none, hasImg := true }] }
        else if initialsThrow u then .threw s1
        else
          .ok { s1 with sidebar := s1.sidebar ++ [{ chan := id, dataId := jsToString id, unread := none, hasImg := false }] }

/-- The loop `items.forEach(...)`: stops at the first exception. -/
def forEachUser (s : State) : List JVal → Res
  | [] => .ok s
  | item :: rest => (userListItem s item).andThen fun s1 => forEachUser s1 rest

/-- The `user_list` branch (lines 145-185). -/
def onUserList (s : State) (data : JVal) : Res :=
  let s0 := { s with sidebar := [] }
  match getProp data "users" with
  | .arr items => forEachUser s0 items
  | _ => .threw s0

/-- Lines 189 and 194: show the roster avatar of the own id, else the cached one. -/
def refreshOwnAvatar (s : State) : State :=
  let av := orElse (mapGet s.avatars (jsToString s.myId)) (storedVal s.storedAvatar)
  if truthy av then setMeAvatar s av else s

/-- The synthetic notice pushed to the public log. -/
def systemNotice (text : String) (ts : JVal) : JVal :=
  .obj [("user", .str "_system"), ("text", .str text), ("ts", ts)]

/-- The `joined` branch (lines 186-190); `now` is the clock reading. -/
def onJoined (now : String) (s : State) (data : JVal) : Res :=
  let s1 := { s with myName := getProp data "user"
                     myId := getProp data "id"
                     storedNick := some (jsToString (getProp data "user")) }
  (addMessageTo s1 (.str "all")
      (systemNotice ("Dein Nick ist jetzt: " ++ jsToString s1.myName)
        (orElse (getProp data "ts") (.str now)))).andThen fun s2 =>
    let s3 := refreshOwnAvatar s2
    renderChannel s3 s3.currentChannel

/-- The `renamed` branch (lines 191-195). -/
def onRenamed (now : String) (s : State) (data : JVal) : Res :=
  let s1 := { s with myName := getProp data "user"
                     storedNick := some (jsToString (getProp data "user")) }
  (addMessageTo s1 (.str "all")
      (systemNotice (jsToString (getProp data "old") ++ " heißt jetzt " ++ jsToString (getProp data "user"))
        (orElse (getProp data "ts") (.str now)))).andThen fun s2 =>
    let s3 := refreshOwnAvatar s2
    renderChannel s3 s3.currentChannel

/-- The `history` branch (lines 196-200). -/
def onHistory (s : State) (data : JVal) : Res :=
  let ch := orElse (getProp data "channel") (.str "all")
  let s1 := { s with messages := mapSet s.messages (jsToString ch) (orElse (getProp data "messages") (.arr [])) }
  if strictEq s1.currentChannel ch then renderChannel s1 ch else .ok s1

/-- The body of the `try` block after `JSON.parse` (lines 96-200). -/
def dispatch (now : String) (s : State) (data : JVal) : Res :=
  if isNullish data then .threw s
  else
    let ty := getProp data "type"
    if strictEq ty (.str "message") then
      if truthy (getProp data "private") then onPrivateMessage s data else onPublicMessage s data
    else if strictEq ty (.str "user_list") then onUserList s data
    else if strictEq ty (.str "joined") then onJoined now s data
    else if strictEq ty (.str "renamed") then onRenamed now s data
    else if strictEq ty (.str "history") then onHistory s data
    else .ok s

/-- What the WebSocket message listener leaves behind. -/
structure Handled where
  state : State
  /-- Whether the `catch` clause ran (`console.error`). -/
  logged : Bool

/-- The WebSocket `message` listener (lines 93-202).  The frame is `none`
when `JSON.parse` rejects it, else the parsed value. -/
def onMessage (now : String) (s : State) (frame : Option JVal) : Handled :=
  match frame with
  | none => { state := s, logged := true }
  | some data =>
    match dispatch now s data with
    | .ok s1 => { state := s1, logged := false }
    | .threw s1 => { state := s1, logged := true }

/-- Processing a sequence of inbound frames, each with its clock reading. -/
def runFrames (s : State) : List (String × Option JVal) → State
  | [] => s
  | (now, frame) :: rest => runFrames (onMessage now s frame).state rest

/-- The WebSocket `open` listener (line 91). -/
def onOpen (s : State) : State :=
  { s with sent := s.sent ++ [JVal.obj [("type", .str "join"), ("user", .str s.nick)]] }

/-- The click listener of the sidebar button at index `i` (lines 117 and
176-183); an exception here is not caught. -/
def clickUser (s : State) (i : Nat) : Res :=
  match s.sidebar[i]? with
  | none => .ok s
  | some b =>
    let s1 := { s with currentChannel := b.chan }
    (renderChannel s1 s1.currentChannel).andThen fun s2 =>
      let s3 := { s2 with sent := s2.sent ++ [JVal.obj [("type", .str "history"), ("channel", b.chan)]] }
      .ok { s3 with sidebar := modifyAt (fun x => { x with unread := some 0 }) i s3.sidebar }

/-- The click listener of the main channel button (line 338). -/
def clickAll (s : State) : Res :=
  let s1 := { s with currentChannel := .str "all" }
  (renderChannel s1 (.str "all")).andThen fun s2 =>
    .ok { s2 with sent := s2.sent ++ [JVal.obj [("type", .str "history"), ("channel", .str "all")]] }

/-- White space and line terminators removed by `String.prototype.trim`. -/
def jsWhite (c : Char) : Bool :=
  let n := c.toNat
  n == 0x9 || n == 0xA || n == 0xB || n == 0xC || n == 0xD || n == 0x20 || n == 0xA0 ||
  n == 0x1680 || (0x2000 ≤ n && n ≤ 0x200A) || n == 0x2028 || n == 0x2029 || n == 0x202F ||
  n == 0x205F || n == 0x3000 || n == 0xFEFF

/-- The method `String.prototype.trim`. -/
def jsTrim (t : String) : String :=
  String.mk ((t.data.dropWhile jsWhite).reverse.dropWhile jsWhite).reverse

/-- The frame built by the send button. -/
def messageFrame (text : String) (target : JVal) : JVal :=
  .obj [("type", .str "message"), ("text", .str text), ("to", target)]

/-- The click listener of the send button (lines 327-333). -/
def clickSend (s : State) : State :=
  let text := jsTrim s.msgInput
  if !truthy (.str text) then s
  else
    let target := orElse s.currentChannel (.str "all")
    if !strictEq target (.str "all") && strictEq target s.myId then s
    else { s with sent := s.sent ++ [messageFrame text target], msgInput := "" }

/-- Result of an avatar HTTP call: a rejected fetch or a non-success status,
or a success whose body is `none` when `JSON.parse` rejects it. -/
inductive HttpResult where
  | failed
  | success (body : Option JVal)

/-- The guards of the upload button before the request is issued (lines 276-278). -/
def uploadStarts (s : State) (fileChosen : Bool) : Bool := fileChosen && truthy s.myId

/-- The upload button once the response is there (lines 283-299). -/
def uploadDone (s : State) (r : HttpResult) : State :=
  match r with
  | .failed => s
  | .success none => s
  | .success (some j) =>
    if isNullish j then s
    else
      let url := getProp j "url"
      let s1 := if truthy s.myId then
          { s with avatars := mapSet s.avatars (jsToString s.myId) url } else s
      let s2 := { setMeAvatar s1 url with storedAvatar := some (jsToString url) }
      match findBtn (btnMatches s2.myId) s2.sidebar with
      | some i => { s2 with sidebar := modifyAt (fun b => { b with hasImg := true }) i s2.sidebar }
      | none => s2

/-- The guard of the remove button (line 305). -/
def removeStarts (s : State) : Bool := truthy s.myId

/-- The remove button once the response is there (lines 309-312). -/
def removeDone (s : State) (r : HttpResult) : State :=
  match r with
  | .failed => s
  | .success _ =>
    let s1 := if truthy s.myId then
        { s with avatars := mapSet s.avatars (jsToString s.myId) .null } else s
    setMeAvatar { s1 with storedAvatar := none } .null

/-! ## Keys on which the maps are exact -/

/-- The member names a plain object inherits from `Object.prototype`. -/
def inheritedNames : List String :=
  ["constructor", "__defineGetter__", "__defineSetter__", "hasOwnProperty",
   "__lookupGetter__", "__lookupSetter__", "isPrototypeOf", "propertyIsEnumerable",
   "toString", "valueOf", "__proto__", "toLocaleString"]

mutual
/-- Every number inside the value is an integer of magnitude at most 2^53 - 1,
which a double holds exactly and `String` prints in decimal. -/
def safeNums : JVal → Bool
  | .undefined => true
  | .null => true
  | .bool _ => true
  | .num n => decide (n.natAbs ≤ 9007199254740991)
  | .str _ => true
  | .arr items => safeNumsAll items
  | .obj _ => true
termination_by structural v => v
/-- The test `safeNums` on every element. -/
def safeNumsAll : List JVal → Bool
  | [] => true
  | v :: rest => safeNums v && safeNumsAll rest
termination_by structural l => l
end

/-- A value whose use as a property key the maps render exactly: its numbers
are safe integers and its string form names no inherited member. -/
def plainKey (v : JVal) : Bool := safeNums v && !inheritedNames.contains (jsToString v)

/-! ## Observations used by the statements -/

/-- The unread counter the script reads for the sidebar entry whose
`dataset.id` is `id`: `parseInt(dataset.unread || 0)` of the first such
button, `0` when there is none. -/
def unreadOf (s : State) (id : String) : Nat :=
  match findBtn (btnMatches (.str id)) s.sidebar with
  | some i => (s.sidebar[i]?.bind (·.unread)).getD 0
  | none => 0

/-! ## Concrete scenarios -/

/-- A `joined` frame. -/
def joinedFrame (id : JVal) (name : String) : JVal :=
  .obj [("type", .str "joined"), ("user", .str name), ("id", id)]

/-- A fresh session: no stored nickname, no cached avatar, `name` typed at the prompt. -/
def freshSession (name : String) : State := init none none (some name)

/-- Client B once the server has confirmed the own id 2. -/
def clientB : State :=
  (onMessage "t0" (freshSession "B") (some (joinedFrame (.num 2) "B"))).state

/-- The private message of user 1 to user 2. -/
def hiMessage : JVal :=
  .obj [("type", .str "message"), ("private", .bool true), ("user", .str "A"),
        ("user_id", .num 1), ("to", .num 2), ("text", .str "hi")]

/-- A `user_list` frame. -/
def rosterFrame (items : List JVal) : JVal :=
  .obj [("type", .str "user_list"), ("users", .arr items)]

/-- A roster entry without avatar. -/
def rosterEntry (id name : String) : JVal :=
  .obj [("id", .str id), ("user", .str name)]

/-- A private message from `src` (named `name`) to `dst`. -/
def privateFrame (src name dst text : String) : JVal :=
  .obj [("type", .str "message"), ("private", .bool true), ("user", .str name),
        ("user_id", .str src), ("to", .str dst), ("text", .str text)]

/-- A `history` frame. -/
def historyFrame (channel : JVal) (msgs : JVal) : JVal :=
  .obj [("type", .str "history"), ("channel", channel), ("messages", msgs)]

/-- A client whose own id is the string "7". -/
def clientSeven : State :=
  (onMessage "t0" (freshSession "Mia") (some (joinedFrame (.str "7") "Mia"))).state

/-- Client "7" after a roster push listing the peer "p". -/
def sevenWithPeer : State :=
  (onMessage "t1" clientSeven (some (rosterFrame [rosterEntry "p" "Pia"]))).state

/-- Client "7" with text typed into the message box. -/
def sevenTyping : State := { clientSeven with msgInput := "  hi \n" }

/-- A frame of a type the script does not know. -/
def pingFrame : JVal := .obj [("type", .str "ping")]

/-! ## Vocabulary of the amended statements -/

/-- A value usable as a display name: a string, or a falsy value (for which
the script falls back to another name). -/
def nameLike (v : JVal) : Bool := !truthy v || isStr v

/-- A roster entry the `user_list` loop gets through: a non-nullish value
whose `user` field is a string or falsy. -/
def entryOk (item : JVal) : Bool := !isNullish item && nameLike (getProp item "user")

/-- The name a `user_list` array carries for the property key `key`: that of
the last entry whose id has this key (`''` when the entry has no name). -/
def rosterNameFor (key : String) : List JVal → Option JVal
  | [] => none
  | item :: rest =>
    match rosterNameFor key rest with
    | some u => some u
    | none =>
      if jsToString (getProp item "id") = key then some (orElse (getProp item "user") (.str ""))
      else none

/-- Whether a `user_list` array carries an entry whose id has the property key `key`. -/
def rosterHas (key : String) (items : List JVal) : Bool :=
  items.any fun item => jsToString (getProp item "id") == key

/-- Client "7" after the peer "p" sent it one private message while "all" was active. -/
def sevenUnread : State :=
  (onMessage "t2" sevenWithPeer (some (privateFrame "p" "Pia" "7" "hello"))).state

/-- The avatar a `user_list` array carries for the own id `me`: that of the
last entry whose id is strictly equal to `me` and whose avatar is truthy. -/
def rosterOwnAvatar (me : JVal) : List JVal → Option String
  | [] => none
  | item :: rest =>
    match rosterOwnAvatar me rest with
    | some a => some a
    | none =>
      if strictEq (getProp item "id") me && truthy (orElse (getProp item "avatar") .null) then
        some (jsToString (orElse (getProp item "avatar") .null))
      else none

/-- A step that can change the own avatar: a roster push, a completed
upload answering with `{url}`, a completed removal. -/
inductive AvatarStep where
  | roster (now : String) (items : List JVal)
  | uploaded (url : String)
  | removed

/-- The script run on one avatar step. -/
def AvatarStep.run (s : State) : AvatarStep → State
  | .roster now items => (onMessage now s (some (rosterFrame items))).state
  | .uploaded url => uploadDone s (.success (some (.obj [("url", .str url)])))
  | .removed => removeDone s (.success none)

/-- The script run on a sequence of avatar steps, in order. -/
def runAvatarSteps (s : State) : List AvatarStep → State
  | [] => s
  | st :: rest => runAvatarSteps (st.run s) rest

/-- The own-avatar value a step carries for the own id `me`, if it carries
one: the uploaded url, nothing (`some none`) for a removal, and for a roster
push the avatar of its own entry when that entry has a truthy avatar. -/
def AvatarStep.carries (me : JVal) : AvatarStep → Option (Option String)
  | .roster _ items => (rosterOwnAvatar me items).map some
  | .uploaded url => some (some url)
  | .removed => some none

/-- Last-applied-wins over the steps that carry a value, starting from `start`. -/
def lastCarried (me : JVal) (start : Option String) : List AvatarStep → Option String
  | [] => start
  | st :: rest => lastCarried me ((st.carries me).getD start) rest

/-- Steps the amended statement covers: roster arrays the loop gets
through, uploads answering with a non-empty url. -/
def AvatarStep.wellFormed : AvatarStep → Bool
  | .roster _ items => items.all entryOk
  | .uploaded url => url != ""
  | .removed => true

/-- A roster entry with an avatar. -/
def rosterEntryWithAvatar (id name avatar : String) : JVal :=
  .obj [("id", .str id), ("user", .str name), ("avatar", .str avatar)]

/-- Client "7" after a `history` frame for "p" whose `messages` field is a string. -/
def sevenBrokenLog : State :=
  (onMessage "t2" sevenWithPeer (some (historyFrame (.str "p") (.str "oops")))).state

/-- Client B after the private message of user 1 arrived twice. -/
def clientBTwice : State :=
  runFrames clientB [("t1", some hiMessage), ("t2", some hiMessage)]

/-! ## Map lemmas -/

theorem mapGet_mapSet_eq (m : List (String × JVal)) (k : String) (v : JVal) :
    mapGet (mapSet m k v) k = v := by
  induction m with
  | nil => simp [mapSet, mapGet]
  | cons p rest ih =>
    obtain ⟨a, w⟩ := p
    by_cases h : a = k
    · simp [mapSet, mapGet, h]
    · simp [mapSet, mapGet, h, ih]

theorem mapGet_mapSet_ne (m : List (String × JVal)) (k k2 : String) (v : JVal) (h : k2 ≠ k) :
    mapGet (mapSet m k v) k2 = mapGet m k2 := by
  induction m with
  | nil => simp [mapSet, mapGet, Ne.symm h]
  | cons p rest ih =>
    obtain ⟨a, w⟩ := p
    by_cases h1 : a = k
    · subst h1
      simp [mapSet, mapGet, Ne.symm h]
    · by_cases h2 : a = k2
      · subst h2
        simp [mapSet, mapGet, h1]
      · simp [mapSet, mapGet, h1, h2, ih]

theorem mapHas_mapSet (m : List (String × JVal)) (k k2 : String) (v : JVal) :
    mapHas (mapSet m k v) k2 = (decide (k2 = k) || mapHas m k2) := by
  induction m with
  | nil =>
    by_cases h : k = k2
    · simp [mapSet, mapHas, h]
    · simp [mapSet, mapHas, h, Ne.symm h]
  | cons p rest ih =>
    obtain ⟨a, w⟩ := p
    by_cases h1 : a = k
    · subst h1
      by_cases h2 : a = k2
      · simp [mapSet, mapHas, h2]
      · simp [mapSet, mapHas, h2, Ne.symm h2]
    · by_cases h2 : a = k2
      · subst h2
        simp [mapSet, mapHas, h1]
      · simp [mapSet, mapHas, h1, h2, ih]

/-! ## Frame lemmas: what each block leaves untouched -/

theorem type_not_nullish (data : JVal) (t : String)
    (h : strictEq (getProp data "type") (.str t) = true) : isNullish data = false := by
  cases data <;> simp_all [getProp, strictEq, isNullish]

theorem renderChannel_state (s : State) (c : JVal) :
    (renderChannel s c).state = { s with renders := s.renders ++ [c] } := by
  unfold renderChannel
  split <;> rfl

theorem bumpUnread_messages (s : State) (o : JVal) (i : Nat) :
    (bumpUnread s o i).messages = s.messages := by
  unfold bumpUnread
  split <;> rfl

theorem ensureButton_messages (s : State) (o d : JVal) :
    (ensureButton s o d).1.state.messages = s.messages := by
  unfold ensureButton
  simp only []
  split
  · split
    · rfl
    · split <;> rfl
  · split
    · rfl
    · split
      · split <;> rfl
      · rfl

theorem addMessageTo_arr (s : State) (c msg : JVal) (log : List JVal)
    (h : orElse (mapGet s.messages (jsToString c)) (.arr []) = .arr log) :
    addMessageTo s c msg =
      .ok { s with messages :=
              mapSet (mapSet s.messages (jsToString c) (.arr log)) (jsToString c) (.arr (log ++ [msg])) } := by
  unfold addMessageTo
  simp only [h]

theorem addMessageTo_messages_ne (s : State) (c msg : JVal) (k : String) (h : k ≠ jsToString c) :
    mapGet (addMessageTo s c msg).state.messages k = mapGet s.messages k := by
  unfold addMessageTo
  simp only []
  split <;> simp [Res.state, mapGet_mapSet_ne _ _ _ _ h]

theorem privateTail_messages (s1 : State) (o d : JVal) :
    ((ensureButton s1 o d).1.andThen fun s2 =>
        if strictEq (bumpUnread s2 o (ensureButton s1 o d).2).currentChannel o then
          renderChannel (bumpUnread s2 o (ensureButton s1 o d).2)
            (bumpUnread s2 o (ensureButton s1 o d).2).currentChannel
        else .ok (bumpUnread s2 o (ensureButton s1 o d).2)).state.messages = s1.messages := by
  have h := ensureButton_messages s1 o d
  cases hr : (ensureButton s1 o d).1 with
  | ok s2 =>
    rw [hr] at h
    simp only [Res.andThen]
    split
    · rw [renderChannel_state]
      simpa [bumpUnread_messages] using h
    · simpa [Res.state, bumpUnread_messages] using h
  | threw s2 =>
    rw [hr] at h
    simpa [Res.andThen] using h

theorem onPrivateMessage_messages (s : State) (d : JVal)
    (h : strictEq (otherOf s.myId d) s.myId = false) :
    (onPrivateMessage s d).state.messages =
      (addMessageTo s (otherOf s.myId d) d).state.messages := by
  unfold onPrivateMessage
  simp only [h]
  cases hr : addMessageTo s (otherOf s.myId d) d with
  | ok s1 => simpa [Res.andThen] using privateTail_messages s1 (otherOf s.myId d) d
  | threw s1 => rfl

theorem dispatch_private (now : String) (s : State) (d : JVal)
    (htype : strictEq (getProp d "type") (.str "message") = true)
    (hpriv : truthy (getProp d "private") = true) :
    dispatch now s d = onPrivateMessage s d := by
  simp [dispatch, type_not_nullish d _ htype, htype, hpriv]

theorem onMessage_state (now : String) (s : State) (d : JVal) :
    (onMessage now s (some d)).state = (dispatch now s d).state := by
  simp only [onMessage]
  cases h : dispatch now s d <;> simp [Res.state]

/-! ## Claims -/

/-- C1 (amended): for an inbound private message `m` and any own id, the
channel key is `m.to` when `m.user_id === myId` and `m.user_id` otherwise;
when that key differs from the own id, is a plain key (its string form names
no member inherited from `Object.prototype`, its numbers are safe integers)
and what is stored under it is an array or nothing, `m` becomes the last
element of the log stored under that key and no other log changes. -/
theorem C1_private_message_routed (now : String) (s : State) (m key : JVal) (log : List JVal)
    (htype : strictEq (getProp m "type") (.str "message") = true)
    (hpriv : truthy (getProp m "private") = true)
    (hkey : key = if strictEq (getProp m "user_id") s.myId then getProp m "to" else getProp m "user_id")
    (hother : strictEq key s.myId = false)
    (_hplain : plainKey key = true)
    (hlog : orElse (mapGet s.messages (jsToString key)) (.arr []) = .arr log) :
    mapGet (onMessage now s (some m)).state.messages (jsToString key) = .arr (log ++ [m]) ∧
    ∀ k, k ≠ jsToString key →
      mapGet (onMessage now s (some m)).state.messages k = mapGet s.messages k := by
  have hk : key = otherOf s.myId m := by rw [hkey]; rfl
  subst hk
  rw [onMessage_state, dispatch_private now s m htype hpriv, onPrivateMessage_messages s m hother]
  constructor
  · rw [addMessageTo_arr s _ m log hlog]
    simp [Res.state, mapGet_mapSet_eq]
  · intro k hk
    exact addMessageTo_messages_ne s _ m k hk

theorem orElse_truthy (a b : JVal) (h : truthy a = true) : orElse a b = a := by
  simp [orElse, h]

theorem orElse_falsy (a b : JVal) (h : truthy a = false) : orElse a b = b := by
  simp [orElse, h]

theorem strictEq_str (v : JVal) (t : String) (h : strictEq v (.str t) = true) : v = .str t := by
  cases v <;> simp_all [strictEq]

theorem strictEq_str_left (v : JVal) (t : String) (h : strictEq (.str t) v = true) : v = .str t := by
  cases v <;> simp_all [strictEq]

/-- C9: a private message whose resolved key is strictly equal to the own id
leaves the whole state as it was and is not logged; hence a log can change
under a private message only at the resolved key, and only when that key is
not the own id. -/
theorem C9_self_addressed_dropped (now : String) (s : State) (m key : JVal)
    (htype : strictEq (getProp m "type") (.str "message") = true)
    (hpriv : truthy (getProp m "private") = true)
    (hkey : key = if strictEq (getProp m "user_id") s.myId then getProp m "to" else getProp m "user_id") :
    (strictEq key s.myId = true → onMessage now s (some m) = { state := s, logged := false }) ∧
    (∀ k, mapGet (onMessage now s (some m)).state.messages k ≠ mapGet s.messages k →
      k = jsToString key ∧ strictEq key s.myId = false) := by
  have hk : key = otherOf s.myId m := by rw [hkey]; rfl
  subst hk
  constructor
  · intro h
    simp [onMessage, dispatch_private now s m htype hpriv, onPrivateMessage, h]
  · intro k hne
    cases h : strictEq (otherOf s.myId m) s.myId with
    | true =>
      exfalso
      apply hne
      simp [onMessage, dispatch_private now s m htype hpriv, onPrivateMessage, h]
    | false =>
      refine ⟨?_, rfl⟩
      by_contra hk
      apply hne
      rw [onMessage_state, dispatch_private now s m htype hpriv, onPrivateMessage_messages s m h]
      exact addMessageTo_messages_ne s _ m k hk

/-- Witness of C9: client B (own id 2) drops a private message it authored
to itself. -/
theorem C9_self_addressed_dropped_witness :
    (strictEq (.num 2) clientB.myId = true →
      onMessage "t1" clientB
        (some (.obj [("type", .str "message"), ("private", .bool true), ("user_id", .num 2), ("to", .num 2)])) =
        { state := clientB, logged := false }) ∧
    (∀ k, mapGet (onMessage "t1" clientB
        (some (.obj [("type", .str "message"), ("private", .bool true), ("user_id", .num 2), ("to", .num 2)]))).state.messages k
          ≠ mapGet clientB.messages k →
      k = jsToString (.num 2) ∧ strictEq (.num 2) clientB.myId = false) :=
  C9_self_addressed_dropped "t1" clientB
    (.obj [("type", .str "message"), ("private", .bool true), ("user_id", .num 2), ("to", .num 2)])
    (.num 2) rfl rfl rfl

theorem dispatch_history (now : String) (s : State) (d : JVal)
    (htype : strictEq (getProp d "type") (.str "history") = true) :
    dispatch now s d = onHistory s d := by
  have h := strictEq_str _ _ htype
  simp [dispatch, type_not_nullish d _ htype, h, strictEq]

/-- C7 (amended): a `history` frame whose channel value `X` is truthy and a
plain key (its string form names no member inherited from
`Object.prototype`, its numbers are safe integers), carrying the array `L`,
makes the log stored under `X` equal to `L`, whatever was stored there,
changes no other log, and calls `renderChannel` (once, for `X`) exactly when
the active channel is strictly equal to `X`. -/
theorem C7_history_replaces_log (now : String) (s : State) (data X : JVal) (L : List JVal)
    (htype : strictEq (getProp data "type") (.str "history") = true)
    (hchan : getProp data "channel" = X)
    (hX : truthy X = true)
    (_hplain : plainKey X = true)
    (hmsgs : getProp data "messages" = .arr L) :
    mapGet (onMessage now s (some data)).state.messages (jsToString X) = .arr L ∧
    (∀ k, k ≠ jsToString X →
      mapGet (onMessage now s (some data)).state.messages k = mapGet s.messages k) ∧
    (onMessage now s (some data)).state.renders =
      (if strictEq s.currentChannel X then s.renders ++ [X] else s.renders) := by
  rw [onMessage_state, dispatch_history now s data htype]
  unfold onHistory
  have h1 : orElse X (.str "all") = X := orElse_truthy X _ hX
  have h2 : orElse (JVal.arr L) (.arr []) = .arr L := orElse_truthy _ _ rfl
  simp only [hchan, hmsgs, h1, h2]
  by_cases hc : strictEq s.currentChannel X = true
  · simp only [hc, if_true, renderChannel_state]
    refine ⟨mapGet_mapSet_eq _ _ _, ?_, trivial⟩
    intro k hk
    exact mapGet_mapSet_ne _ _ _ _ hk
  · simp only [hc, Res.state]
    refine ⟨mapGet_mapSet_eq _ _ _, ?_, by simp⟩
    intro k hk
    exact mapGet_mapSet_ne _ _ _ _ hk

/-- C10: with an own id other than the sentinel "all", the send button hands
no frame to the socket exactly when the trimmed input is empty or the target
(`currentChannel || 'all'`) is strictly equal to the own id, and then nothing
changes at all; otherwise it hands over exactly one frame
`{type:'message', text:<trimmed input>, to:<target>}` and clears the input. -/
theorem C10_send_guard (s : State) (hid : s.myId ≠ .str "all") :
    ((clickSend s).sent = s.sent ↔
      (jsTrim s.msgInput = "" ∨ strictEq (orElse s.currentChannel (.str "all")) s.myId = true)) ∧
    ((jsTrim s.msgInput = "" ∨ strictEq (orElse s.currentChannel (.str "all")) s.myId = true) →
      clickSend s = s) ∧
    (¬ (jsTrim s.msgInput = "" ∨ strictEq (orElse s.currentChannel (.str "all")) s.myId = true) →
      (clickSend s).sent = s.sent ++
        [.obj [("type", .str "message"), ("text", .str (jsTrim s.msgInput)),
               ("to", orElse s.currentChannel (.str "all"))]] ∧
      (clickSend s).msgInput = "") := by
  have hall : strictEq (orElse s.currentChannel (.str "all")) (.str "all") = true →
      strictEq (orElse s.currentChannel (.str "all")) s.myId = false := by
    intro h
    rw [strictEq_str _ _ h]
    cases hm : strictEq (.str "all") s.myId with
    | false => rfl
    | true => exact absurd (strictEq_str_left _ _ hm) hid
  by_cases ht : jsTrim s.msgInput = ""
  · have hs : clickSend s = s := by simp [clickSend, truthy, ht]
    refine ⟨?_, fun _ => hs, fun h => absurd (Or.inl ht) h⟩
    rw [hs]
    exact ⟨fun _ => Or.inl ht, fun _ => rfl⟩
  · by_cases hself : strictEq (orElse s.currentChannel (.str "all")) s.myId = true
    · have hnot : strictEq (orElse s.currentChannel (.str "all")) (.str "all") = false := by
        cases h : strictEq (orElse s.currentChannel (.str "all")) (.str "all") with
        | false => rfl
        | true => rw [hall h] at hself; exact absurd hself (by decide)
      have hs : clickSend s = s := by simp [clickSend, truthy, ht, hself, hnot]
      refine ⟨?_, fun _ => hs, fun h => absurd (Or.inr hself) h⟩
      rw [hs]
      exact ⟨fun _ => Or.inr hself, fun _ => rfl⟩
    · have hs : clickSend s =
          { s with sent := s.sent ++ [messageFrame (jsTrim s.msgInput) (orElse s.currentChannel (.str "all"))]
                   msgInput := "" } := by
        simp [clickSend, truthy, ht, hself]
      refine ⟨?_, ?_, fun _ => ?_⟩
      · rw [hs]
        constructor
        · intro h
          have hl := congrArg List.length h
          simp at hl
        · rintro (h | h)
          · exact absurd h ht
          · exact absurd h hself
      · rintro (h | h)
        · exact absurd h ht
        · exact absurd h hself
      · rw [hs]
        exact ⟨rfl, rfl⟩

/-- Witness of C10: client "7", viewing "all" with "  hi " typed, sends one
message frame with the trimmed text and empties the input. -/
theorem C10_send_guard_witness :
    (clickSend sevenTyping).sent = sevenTyping.sent ++
        [.obj [("type", .str "message"), ("text", .str "hi"), ("to", .str "all")]] ∧
      (clickSend sevenTyping).msgInput = "" :=
  (C10_send_guard sevenTyping (fun h => absurd (JVal.str.inj h) (by decide))).2.2
    (fun h => h.elim (fun h1 => absurd h1 (by decide)) (fun h2 => absurd h2 (by decide)))

/-- C5 (amended): a frame that `JSON.parse` rejects, a frame whose value is
`null`, and a frame whose value carries none of the five known types leave
the state as it was; the first two are logged, the third is not.  The
listener itself returns in every case (`onMessage` is total). -/
theorem C5_undecodable_frames_ignored (now : String) (s : State) :
    onMessage now s none = { state := s, logged := true } ∧
    (∀ data, isNullish data = true → onMessage now s (some data) = { state := s, logged := true }) ∧
    (∀ data, isNullish data = false →
      strictEq (getProp data "type") (.str "message") = false →
      strictEq (getProp data "type") (.str "user_list") = false →
      strictEq (getProp data "type") (.str "joined") = false →
      strictEq (getProp data "type") (.str "renamed") = false →
      strictEq (getProp data "type") (.str "history") = false →
      onMessage now s (some data) = { state := s, logged := false }) := by
  refine ⟨rfl, ?_, ?_⟩
  · intro data h
    simp [onMessage, dispatch, h]
  · intro data h h1 h2 h3 h4 h5
    simp [onMessage, dispatch, h, h1, h2, h3, h4, h5]

/-- Witness of C5 (amended): client "7" ignores `null` and a frame of type "ping". -/
theorem C5_undecodable_frames_ignored_witness :
    onMessage "t1" sevenWithPeer (some .null) = { state := sevenWithPeer, logged := true } ∧
    onMessage "t1" sevenWithPeer (some pingFrame) = { state := sevenWithPeer, logged := false } :=
  ⟨(C5_undecodable_frames_ignored "t1" sevenWithPeer).2.1 .null rfl,
   (C5_undecodable_frames_ignored "t1" sevenWithPeer).2.2 pingFrame rfl rfl rfl rfl rfl rfl⟩

/-- C5, counterexample: a `user_list` frame without a `users` array is logged
as an error, yet it empties the sidebar of client "7", which listed the peer
"p" before: the state after the handler differs from the state before. -/
theorem C5_counterexample :
    sevenWithPeer.sidebar.length = 1 ∧
    (onMessage "t2" sevenWithPeer (some (.obj [("type", .str "user_list")]))).logged = true ∧
    (onMessage "t2" sevenWithPeer (some (.obj [("type", .str "user_list")]))).state.sidebar.length = 0 ∧
    (onMessage "t2" sevenWithPeer (some (.obj [("type", .str "user_list")]))).state ≠ sevenWithPeer :=
  ⟨rfl, rfl, rfl, fun h => absurd (congrArg (fun t => t.sidebar.length) h) (by decide)⟩

/-! ## The `user_list` loop -/

theorem initialsThrow_of_nameLike (v : JVal) (h : nameLike v = true) :
    initialsThrow (orElse v (.str "")) = false := by
  cases v with
  | str t => by_cases ht : t = "" <;> simp [initialsThrow, orElse, truthy, isStr, ht]
  | _ => simp_all [nameLike, initialsThrow, orElse, truthy, isStr]

theorem userListItem_ok (s : State) (item : JVal) (h : entryOk item = true) :
    ∃ sb, userListItem s item = .ok
      { s with
        users := mapSet s.users (jsToString (getProp item "id")) (orElse (getProp item "user") (.str ""))
        avatars := mapSet s.avatars (jsToString (getProp item "id")) (orElse (getProp item "avatar") .null)
        sidebar := sb
        meAvatar :=
          if strictEq (getProp item "id") s.myId = true ∧ truthy (orElse (getProp item "avatar") .null) = true
          then some (jsToString (orElse (getProp item "avatar") .null)) else s.meAvatar
        storedAvatar :=
          if strictEq (getProp item "id") s.myId = true ∧ truthy (orElse (getProp item "avatar") .null) = true
          then some (jsToString (orElse (getProp item "avatar") .null)) else s.storedAvatar } := by
  simp only [entryOk, Bool.and_eq_true, Bool.not_eq_true'] at h
  have hn := initialsThrow_of_nameLike _ h.2
  unfold userListItem
  simp only [h.1, hn, Bool.false_eq_true, if_false]
  by_cases hid : strictEq (getProp item "id") s.myId = true
  · by_cases hav : truthy (orElse (getProp item "avatar") .null) = true
    · exact ⟨s.sidebar, by simp [hid, hav, setMeAvatar]⟩
    · exact ⟨s.sidebar, by simp [hid, hav]⟩
  · simp only [hid, Bool.false_eq_true, false_and, if_false]
    split
    · split_ifs <;> exact ⟨_, rfl⟩
    · split_ifs <;> exact ⟨_, rfl⟩

theorem forEachUser_ok (items : List JVal) :
    ∀ s : State, (∀ item ∈ items, entryOk item = true) →
      ∃ t, forEachUser s items = .ok t ∧ t.myId = s.myId ∧ t.messages = s.messages ∧
        (∀ key, mapGet t.users key = (rosterNameFor key items).getD (mapGet s.users key)) ∧
        (∀ key, mapHas t.users key = (rosterHas key items || mapHas s.users key)) ∧
        t.meAvatar = ((rosterOwnAvatar s.myId items).map some).getD s.meAvatar ∧
        t.storedAvatar = ((rosterOwnAvatar s.myId items).map some).getD s.storedAvatar := by
  induction items with
  | nil =>
    intro s _
    exact ⟨s, rfl, rfl, rfl, fun _ => rfl, fun _ => by simp [rosterHas], rfl, rfl⟩
  | cons item rest ih =>
    intro s hok
    obtain ⟨sb, h1⟩ := userListItem_ok s item (hok item (List.mem_cons_self _ _))
    obtain ⟨t, ht, hid, hmsg, hget, hhas, hme, hst⟩ :=
      ih _ (fun it hit => hok it (List.mem_cons_of_mem _ hit))
    refine ⟨t, ?_, ?_, ?_, ?_, ?_, ?_, ?_⟩
    · simp only [forEachUser, h1, Res.andThen]
      exact ht
    · simpa using hid
    · simpa using hmsg
    · intro key
      rw [hget key]
      simp only [rosterNameFor]
      cases hr : rosterNameFor key rest with
      | some u => rfl
      | none =>
        by_cases hk : jsToString (getProp item "id") = key
        · subst hk
          simp [mapGet_mapSet_eq]
        · simp [hk, mapGet_mapSet_ne _ _ _ _ (Ne.symm hk)]
    · intro key
      rw [hhas key, mapHas_mapSet]
      simp only [rosterHas, List.any_cons]
      by_cases hk : jsToString (getProp item "id") = key
      · subst hk
        simp
      · have hb : (jsToString (getProp item "id") == key) = false := by simpa using hk
        simp [hb, Ne.symm hk, Bool.or_comm]
    · rw [hme]
      simp only [rosterOwnAvatar]
      cases hr : rosterOwnAvatar s.myId rest with
      | some a => rfl
      | none =>
        by_cases hc : strictEq (getProp item "id") s.myId = true ∧
            truthy (orElse (getProp item "avatar") .null) = true
        · simp [hc]
        · have hc2 : (strictEq (getProp item "id") s.myId &&
              truthy (orElse (getProp item "avatar") .null)) = false := by
            simpa [Bool.and_eq_true] using hc
          simp [hc, hc2]
    · rw [hst]
      simp only [rosterOwnAvatar]
      cases hr : rosterOwnAvatar s.myId rest with
      | some a => rfl
      | none =>
        by_cases hc : strictEq (getProp item "id") s.myId = true ∧
            truthy (orElse (getProp item "avatar") .null) = true
        · simp [hc]
        · have hc2 : (strictEq (getProp item "id") s.myId &&
              truthy (orElse (getProp item "avatar") .null)) = false := by
            simpa [Bool.and_eq_true] using hc
          simp [hc, hc2]

theorem dispatch_user_list (now : String) (s : State) (d : JVal)
    (htype : strictEq (getProp d "type") (.str "user_list") = true) :
    dispatch now s d = onUserList s d := by
  have h := strictEq_str _ _ htype
  simp [dispatch, type_not_nullish d _ htype, h, strictEq]

/-- C6 (amended): a `user_list` frame merges into the roster map.  When its
`users` array holds entries the loop gets through, the map afterwards has an
entry for a key exactly when the array carries that key or the map had it
before; a key the array carries gets the name of its last entry (`''` when
that entry has none), and every other key keeps the value it had. -/
theorem C6_roster_merge (now : String) (s : State) (data : JVal) (items : List JVal)
    (htype : strictEq (getProp data "type") (.str "user_list") = true)
    (husers : getProp data "users" = .arr items)
    (hok : ∀ item ∈ items, entryOk item = true) :
    (∀ key, mapHas (onMessage now s (some data)).state.users key =
      (rosterHas key items || mapHas s.users key)) ∧
    (∀ key, mapGet (onMessage now s (some data)).state.users key =
      match rosterNameFor key items with
      | some name => name
      | none => mapGet s.users key) := by
  rw [onMessage_state, dispatch_user_list now s data htype]
  unfold onUserList
  simp only [husers]
  obtain ⟨t, ht, _, _, hget, hhas, _, _⟩ := forEachUser_ok items { s with sidebar := [] } hok
  rw [ht]
  refine ⟨fun key => hhas key, fun key => ?_⟩
  rw [show (Res.ok t).state = t from rfl, hget key]
  cases rosterNameFor key items <;> rfl

/-- Witness of C6 (amended): client "7", whose roster map holds "p", receives
a roster naming only "q": afterwards "q" maps to its name and "p" is kept. -/
theorem C6_roster_merge_witness :
    (∀ key, mapHas (onMessage "t2" sevenWithPeer (some (rosterFrame [rosterEntry "q" "Quin"]))).state.users key =
      (rosterHas key [rosterEntry "q" "Quin"] || mapHas sevenWithPeer.users key)) ∧
    (∀ key, mapGet (onMessage "t2" sevenWithPeer (some (rosterFrame [rosterEntry "q" "Quin"]))).state.users key =
      match rosterNameFor key [rosterEntry "q" "Quin"] with
      | some name => name
      | none => mapGet sevenWithPeer.users key) :=
  C6_roster_merge "t2" sevenWithPeer (rosterFrame [rosterEntry "q" "Quin"]) [rosterEntry "q" "Quin"]
    rfl rfl (by decide)

/-- C6, counterexample: after a roster snapshot that names only "q", the
roster map of client "7" still has the entry of "p", which the snapshot does
not contain. -/
theorem C6_counterexample :
    rosterHas "p" [rosterEntry "q" "Quin"] = false ∧
    mapHas (onMessage "t2" sevenWithPeer (some (rosterFrame [rosterEntry "q" "Quin"]))).state.users "p" = true ∧
    mapGet (onMessage "t2" sevenWithPeer (some (rosterFrame [rosterEntry "q" "Quin"]))).state.users "p" =
      .str "Pia" :=
  ⟨rfl, rfl, rfl⟩

/-! ## Sidebar lemmas -/

@[simp] theorem setMeAvatar_nick (s : State) (u : JVal) : (setMeAvatar s u).nick = s.nick := by
  unfold setMeAvatar
  split <;> rfl

@[simp] theorem setMeAvatar_myName (s : State) (u : JVal) : (setMeAvatar s u).myName = s.myName := by
  unfold setMeAvatar
  split <;> rfl

@[simp] theorem setMeAvatar_currentChannel (s : State) (u : JVal) : (setMeAvatar s u).currentChannel = s.currentChannel := by
  unfold setMeAvatar
  split <;> rfl

@[simp] theorem setMeAvatar_messages (s : State) (u : JVal) : (setMeAvatar s u).messages = s.messages := by
  unfold setMeAvatar
  split <;> rfl

@[simp] theorem setMeAvatar_avatars (s : State) (u : JVal) : (setMeAvatar s u).avatars = s.avatars := by
  unfold setMeAvatar
  split <;> rfl

@[simp] theorem setMeAvatar_users (s : State) (u : JVal) : (setMeAvatar s u).users = s.users := by
  unfold setMeAvatar
  split <;> rfl

@[simp] theorem setMeAvatar_myId (s : State) (u : JVal) : (setMeAvatar s u).myId = s.myId := by
  unfold setMeAvatar
  split <;> rfl

@[simp] theorem setMeAvatar_sidebar (s : State) (u : JVal) : (setMeAvatar s u).sidebar = s.sidebar := by
  unfold setMeAvatar
  split <;> rfl

@[simp] theorem setMeAvatar_storedNick (s : State) (u : JVal) : (setMeAvatar s u).storedNick = s.storedNick := by
  unfold setMeAvatar
  split <;> rfl

@[simp] theorem setMeAvatar_storedAvatar (s : State) (u : JVal) : (setMeAvatar s u).storedAvatar = s.storedAvatar := by
  unfold setMeAvatar
  split <;> rfl

@[simp] theorem setMeAvatar_msgInput (s : State) (u : JVal) : (setMeAvatar s u).msgInput = s.msgInput := by
  unfold setMeAvatar
  split <;> rfl

@[simp] theorem setMeAvatar_sent (s : State) (u : JVal) : (setMeAvatar s u).sent = s.sent := by
  unfold setMeAvatar
  split <;> rfl

@[simp] theorem setMeAvatar_renders (s : State) (u : JVal) : (setMeAvatar s u).renders = s.renders := by
  unfold setMeAvatar
  split <;> rfl


theorem modifyAt_mem (f : Button → Button) (l : List Button) :
    ∀ (i : Nat) (b : Button), b ∈ modifyAt f i l → b ∈ l ∨ ∃ c ∈ l, b = f c := by
  induction l with
  | nil => intro i b h; cases i <;> simp [modifyAt] at h
  | cons a rest ih =>
    intro i b h
    cases i with
    | zero =>
      simp only [modifyAt, List.mem_cons] at h
      rcases h with h | h
      · exact Or.inr ⟨a, List.mem_cons_self _ _, h⟩
      · exact Or.inl (List.mem_cons_of_mem _ h)
    | succ j =>
      simp only [modifyAt, List.mem_cons] at h
      rcases h with h | h
      · exact Or.inl (h ▸ List.mem_cons_self _ _)
      · rcases ih j b h with h1 | ⟨c, hc, hb⟩
        · exact Or.inl (List.mem_cons_of_mem _ h1)
        · exact Or.inr ⟨c, List.mem_cons_of_mem _ hc, hb⟩

theorem modifyAt_forall (P : Button → Prop) (f : Button → Button) (hf : ∀ b, P b → P (f b))
    (l : List Button) (i : Nat) (h : ∀ b ∈ l, P b) : ∀ b ∈ modifyAt f i l, P b := by
  intro b hb
  rcases modifyAt_mem f l i b hb with h1 | ⟨c, hc, rfl⟩
  · exact h b h1
  · exact hf c (h c hc)

theorem userListItem_sidebar_forall (P : Button → Prop)
    (hP : ∀ b : Button, P b → ∀ img, P { b with hasImg := img })
    (s : State) (item : JVal)
    (hnew : ∀ img, strictEq (getProp item "id") s.myId = false →
      P { chan := getProp item "id", dataId := jsToString (getProp item "id"), unread := none, hasImg := img })
    (h : ∀ b ∈ s.sidebar, P b) :
    ∀ b ∈ (userListItem s item).state.sidebar, P b := by
  unfold userListItem
  split
  · exact h
  · simp only []
    split
    · split
      · simpa [Res.state] using h
      · exact h
    · rename_i hid
      have hid2 : strictEq (getProp item "id") s.myId = false := by simpa using hid
      split
      · split_ifs
        · exact modifyAt_forall P _ (fun b hb => hP b hb true) _ _ h
        · exact modifyAt_forall P _ (fun b hb => hP b hb false) _ _ h
        · exact modifyAt_forall P _ (fun b hb => hP b hb false) _ _ h
        · exact h
      · split_ifs
        · intro b hb
          simp only [Res.state, List.mem_append, List.mem_singleton] at hb
          rcases hb with hb | hb
          · exact h b hb
          · exact hb ▸ hnew true hid2
        · exact h
        · intro b hb
          simp only [Res.state, List.mem_append, List.mem_singleton] at hb
          rcases hb with hb | hb
          · exact h b hb
          · exact hb ▸ hnew false hid2

theorem userListItem_myId (s : State) (item : JVal) : (userListItem s item).state.myId = s.myId := by
  unfold userListItem
  split
  · rfl
  · simp only []
    split
    · split
      · simp [Res.state]
      · rfl
    · split <;> split_ifs <;> rfl

theorem forEachUser_sidebar_forall (P : Button → Prop)
    (hP : ∀ b : Button, P b → ∀ img, P { b with hasImg := img })
    (me : JVal)
    (hnew : ∀ (id : JVal) (img : Bool), strictEq id me = false →
      P { chan := id, dataId := jsToString id, unread := none, hasImg := img })
    (items : List JVal) :
    ∀ s : State, s.myId = me → (∀ b ∈ s.sidebar, P b) →
      ∀ b ∈ (forEachUser s items).state.sidebar, P b := by
  induction items with
  | nil => intro s _ h; exact h
  | cons item rest ih =>
    intro s hme h
    have h1 := userListItem_sidebar_forall P hP s item
      (fun img hid => hnew _ img (hme ▸ hid)) h
    have h2 := userListItem_myId s item
    simp only [forEachUser]
    cases hr : userListItem s item with
    | ok s1 =>
      rw [hr] at h1 h2
      exact ih s1 (h2.trans hme) h1
    | threw s1 =>
      rw [hr] at h1
      exact h1

theorem onUserList_sidebar_forall (P : Button → Prop)
    (hP : ∀ b : Button, P b → ∀ img, P { b with hasImg := img })
    (s : State) (data : JVal)
    (hnew : ∀ (id : JVal) (img : Bool), strictEq id s.myId = false →
      P { chan := id, dataId := jsToString id, unread := none, hasImg := img }) :
    ∀ b ∈ (onUserList s data).state.sidebar, P b := by
  unfold onUserList
  simp only []
  split
  · exact forEachUser_sidebar_forall P hP s.myId hnew _ _ rfl (by intro b hb; cases hb)
  · intro b hb
    cases hb

theorem unreadOf_zero_of_forall (s : State) (id : String) (h : ∀ b ∈ s.sidebar, b.unread = none) :
    unreadOf s id = 0 := by
  unfold unreadOf
  split
  · rename_i i _
    cases hb : s.sidebar[i]? with
    | none => rfl
    | some b =>
      have hm : b ∈ s.sidebar := List.getElem?_mem hb
      simp [h b hm]
  · rfl

/-! ## Footprints of the handler branches -/

theorem addMessageTo_footprint (s : State) (c m : JVal) :
    ∃ ms, (addMessageTo s c m).state = { s with messages := ms } := by
  unfold addMessageTo
  simp only []
  split <;> exact ⟨_, rfl⟩

theorem addMessageTo_mapHas (s : State) (c m : JVal) (k : String) :
    mapHas (addMessageTo s c m).state.messages k = (decide (k = jsToString c) || mapHas s.messages k) := by
  unfold addMessageTo
  simp only []
  split <;> simp [Res.state, mapHas_mapSet]

theorem ensureButton_footprint (s : State) (o d : JVal) :
    ∃ sb, (ensureButton s o d).1.state = { s with sidebar := sb } := by
  unfold ensureButton
  simp only []
  split <;> split_ifs <;> exact ⟨_, rfl⟩

theorem bumpUnread_footprint (s : State) (o : JVal) (i : Nat) :
    ∃ sb, bumpUnread s o i = { s with sidebar := sb } := by
  unfold bumpUnread
  split <;> exact ⟨_, rfl⟩

theorem onPrivateMessage_footprint (s : State) (d : JVal) :
    ∃ ms sb rs, (onPrivateMessage s d).state = { s with messages := ms, sidebar := sb, renders := rs } := by
  unfold onPrivateMessage
  simp only []
  split
  · exact ⟨_, _, _, rfl⟩
  · obtain ⟨ms, h1⟩ := addMessageTo_footprint s (otherOf s.myId d) d
    cases hr : addMessageTo s (otherOf s.myId d) d with
    | threw s1 =>
      rw [hr] at h1
      exact ⟨ms, _, _, h1⟩
    | ok s1 =>
      rw [hr] at h1
      simp only [Res.state] at h1
      simp only [Res.andThen]
      obtain ⟨sb, h2⟩ := ensureButton_footprint s1 (otherOf s.myId d) d
      cases hr2 : (ensureButton s1 (otherOf s.myId d) d).1 with
      | threw s2 =>
        rw [hr2] at h2
        simp only [Res.state] at h2
        exact ⟨ms, sb, s.renders, by simp [Res.state, h2, h1]⟩
      | ok s2 =>
        rw [hr2] at h2
        simp only [Res.state] at h2
        obtain ⟨sb3, h3⟩ := bumpUnread_footprint s2 (otherOf s.myId d) (ensureButton s1 (otherOf s.myId d) d).2
        simp only []
        split
        · exact ⟨ms, sb3, _, by rw [renderChannel_state, h3, h2, h1]⟩
        · exact ⟨ms, sb3, s.renders, by simp only [Res.state]; rw [h3, h2, h1]⟩

theorem onPublicMessage_footprint (s : State) (d : JVal) :
    ∃ ms rs, (onPublicMessage s d).state = { s with messages := ms, renders := rs } ∧
      ms = (addMessageTo s (.str "all") d).state.messages := by
  unfold onPublicMessage
  obtain ⟨ms, h1⟩ := addMessageTo_footprint s (.str "all") d
  cases hr : addMessageTo s (.str "all") d with
  | threw s1 =>
    rw [hr] at h1
    simp only [Res.state] at h1
    exact ⟨ms, s.renders, by simp [Res.andThen, Res.state, h1]⟩
  | ok s1 =>
    rw [hr] at h1
    simp only [Res.state] at h1
    simp only [Res.andThen]
    split
    · exact ⟨ms, _, by rw [renderChannel_state, h1], by simp [Res.state, h1]⟩
    · exact ⟨ms, s.renders, by simp [Res.state, h1]⟩

theorem userListItem_messages (s : State) (item : JVal) :
    (userListItem s item).state.messages = s.messages := by
  unfold userListItem
  split
  · rfl
  · simp only []
    split
    · split
      · simp [Res.state]
      · rfl
    · split <;> split_ifs <;> rfl

theorem forEachUser_frame (items : List JVal) :
    ∀ s : State, (forEachUser s items).state.myId = s.myId ∧
      (forEachUser s items).state.messages = s.messages := by
  induction items with
  | nil => intro s; exact ⟨rfl, rfl⟩
  | cons item rest ih =>
    intro s
    have h1 := userListItem_myId s item
    have h2 := userListItem_messages s item
    simp only [forEachUser]
    cases hr : userListItem s item with
    | ok s1 =>
      rw [hr] at h1 h2
      simp only [Res.state] at h1 h2
      simp only [Res.andThen]
      exact ⟨(ih s1).1.trans h1, (ih s1).2.trans h2⟩
    | threw s1 =>
      rw [hr] at h1 h2
      exact ⟨h1, h2⟩

theorem onUserList_frame (s : State) (d : JVal) :
    (onUserList s d).state.myId = s.myId ∧ (onUserList s d).state.messages = s.messages := by
  unfold onUserList
  simp only []
  split
  · exact forEachUser_frame _ _
  · exact ⟨rfl, rfl⟩

theorem refreshOwnAvatar_footprint (s : State) :
    ∃ a, refreshOwnAvatar s = { s with meAvatar := a } := by
  unfold refreshOwnAvatar setMeAvatar
  simp only []
  split_ifs <;> exact ⟨_, rfl⟩

theorem noticeTail_frame (s1 : State) (c notice : JVal) :
    ((addMessageTo s1 c notice).andThen fun s2 =>
        renderChannel (refreshOwnAvatar s2) (refreshOwnAvatar s2).currentChannel).state.myId = s1.myId ∧
    ((addMessageTo s1 c notice).andThen fun s2 =>
        renderChannel (refreshOwnAvatar s2) (refreshOwnAvatar s2).currentChannel).state.messages =
      (addMessageTo s1 c notice).state.messages := by
  obtain ⟨ms, h1⟩ := addMessageTo_footprint s1 c notice
  cases hr : addMessageTo s1 c notice with
  | threw s2 =>
    rw [hr] at h1
    simp only [Res.state] at h1
    simp [Res.andThen, Res.state, h1]
  | ok s2 =>
    rw [hr] at h1
    simp only [Res.state] at h1
    obtain ⟨a, h2⟩ := refreshOwnAvatar_footprint s2
    simp only [Res.andThen, renderChannel_state, h2]
    simp [Res.state, h1]

theorem onJoined_frame (now : String) (s : State) (d : JVal) (k : String) :
    (onJoined now s d).state.myId = getProp d "id" ∧
    mapHas (onJoined now s d).state.messages k = (decide (k = "all") || mapHas s.messages k) := by
  unfold onJoined
  simp only []
  refine ⟨(noticeTail_frame _ _ _).1, ?_⟩
  rw [(noticeTail_frame _ _ _).2, addMessageTo_mapHas]
  rfl

theorem onRenamed_frame (now : String) (s : State) (d : JVal) (k : String) :
    (onRenamed now s d).state.myId = s.myId ∧
    mapHas (onRenamed now s d).state.messages k = (decide (k = "all") || mapHas s.messages k) := by
  unfold onRenamed
  simp only []
  refine ⟨(noticeTail_frame _ _ _).1, ?_⟩
  rw [(noticeTail_frame _ _ _).2, addMessageTo_mapHas]
  rfl

theorem onHistory_frame (s : State) (d : JVal) (k : String) :
    (onHistory s d).state.myId = s.myId ∧
    mapHas (onHistory s d).state.messages k =
      (decide (k = jsToString (orElse (getProp d "channel") (.str "all"))) || mapHas s.messages k) := by
  unfold onHistory
  simp only []
  split
  · rw [renderChannel_state]
    exact ⟨rfl, mapHas_mapSet _ _ _ _⟩
  · exact ⟨rfl, mapHas_mapSet _ _ _ _⟩

/-! ## Finding and updating sidebar buttons -/

theorem findBtn_some (p : Button → Bool) (l : List Button) :
    ∀ i, findBtn p l = some i → ∃ b, l[i]? = some b ∧ p b = true := by
  induction l with
  | nil => intro i h; simp [findBtn] at h
  | cons a rest ih =>
    intro i h
    by_cases hp : p a = true
    · simp only [findBtn, hp, if_true, Option.some.injEq] at h
      subst h
      exact ⟨a, by simp, hp⟩
    · simp only [findBtn, hp, Bool.false_eq_true, if_false, Option.map_eq_some'] at h
      obtain ⟨j, hj, rfl⟩ := h
      obtain ⟨b, hb, hpb⟩ := ih j hj
      exact ⟨b, by simpa using hb, hpb⟩

theorem findBtn_modifyAt (p : Button → Bool) (f : Button → Button) (hf : ∀ b, p (f b) = p b)
    (l : List Button) : ∀ i, findBtn p (modifyAt f i l) = findBtn p l := by
  induction l with
  | nil => intro i; cases i <;> rfl
  | cons a rest ih =>
    intro i
    cases i with
    | zero => simp [modifyAt, findBtn, hf]
    | succ j => simp [modifyAt, findBtn, ih j]

theorem getElem?_modifyAt (f : Button → Button) (l : List Button) :
    ∀ i, (modifyAt f i l)[i]? = l[i]?.map f := by
  induction l with
  | nil => intro i; cases i <;> rfl
  | cons a rest ih =>
    intro i
    cases i with
    | zero => simp [modifyAt]
    | succ j => simpa [modifyAt] using ih j

theorem findBtn_append_new (p : Button → Bool) (b : Button) (hb : p b = true) (l : List Button)
    (h : findBtn p l = none) : findBtn p (l ++ [b]) = some l.length := by
  induction l with
  | nil => simp [findBtn, hb]
  | cons a rest ih =>
    by_cases hp : p a = true
    · simp [findBtn, hp] at h
    · simp only [findBtn, hp, Bool.false_eq_true, if_false, Option.map_eq_none'] at h
      simp [findBtn, hp, ih h]

theorem modifyAt_append_new (f : Button → Button) (b : Button) (l : List Button) :
    modifyAt f l.length (l ++ [b]) = l ++ [f b] := by
  induction l with
  | nil => rfl
  | cons a rest ih => simp [modifyAt, ih]

theorem unreadOf_congr (s t : State) (id : String) (h : t.sidebar = s.sidebar) :
    unreadOf t id = unreadOf s id := by
  unfold unreadOf
  rw [h]

theorem unreadOf_at (s : State) (id : String) (i : Nat) (b : Button)
    (hf : findBtn (btnMatches (.str id)) s.sidebar = some i) (hb : s.sidebar[i]? = some b) :
    unreadOf s id = b.unread.getD 0 := by
  simp [unreadOf, hf, hb]

theorem initialsThrow_orElse (a b : JVal) (ha : nameLike a = true) (hb : initialsThrow b = false) :
    initialsThrow (orElse a b) = false := by
  by_cases ht : truthy a = true
  · rw [orElse_truthy a b ht]
    cases a <;> simp_all [nameLike, initialsThrow, isStr]
  · rw [orElse_falsy a b (by simpa using ht)]
    exact hb

/-- What lines 104-138 do to the counter of the string id `id`. -/
theorem ensureButton_bump (s1 : State) (id : String) (m : JVal)
    (hname : initialsThrow (orElse (getProp m "to_user") (orElse (getProp m "user")
      (orElse (mapGet s1.users id) (.str id)))) = false) :
    ∃ s2, (ensureButton s1 (.str id) m).1 = .ok s2 ∧
      s2.currentChannel = s1.currentChannel ∧
      unreadOf (bumpUnread s2 (.str id) (ensureButton s1 (.str id) m).2) id =
        if strictEq s1.currentChannel (.str id) then unreadOf s1 id else unreadOf s1 id + 1 := by
  have hkey : jsToString (.str id) = id := by simp [jsToString]
  have hmatch : ∀ (img : Bool), btnMatches (.str id)
      { chan := .str id, dataId := id, unread := none, hasImg := img } = true := by
    intro img
    simp [btnMatches, strictEq]
  cases hf : findBtn (btnMatches (.str id)) s1.sidebar with
  | none =>
    have h0 : unreadOf s1 id = 0 := by simp [unreadOf, hf]
    have key : ∀ img : Bool,
        unreadOf (bumpUnread { s1 with sidebar := s1.sidebar ++
            [{ chan := .str id, dataId := id, unread := none, hasImg := img }] } (.str id)
            s1.sidebar.length) id =
          if strictEq s1.currentChannel (.str id) then unreadOf s1 id else unreadOf s1 id + 1 := by
      intro img
      unfold bumpUnread
      by_cases hc : strictEq s1.currentChannel (.str id) = true
      · simp only [hc, if_true]
        rw [unreadOf_at _ id s1.sidebar.length
          { chan := .str id, dataId := id, unread := none, hasImg := img }
          (findBtn_append_new _ _ (hmatch img) _ hf) (by simp), h0]
        rfl
      · simp only [hc, if_false]
        rw [h0]
        simp only [modifyAt_append_new]
        rw [unreadOf_at _ id s1.sidebar.length
          { chan := .str id, dataId := id, unread := some 1, hasImg := img }
          (findBtn_append_new _ _ (by exact hmatch img) _ hf) (by simp)]
        rfl
    generalize (if strictEq s1.currentChannel (.str id) then unreadOf s1 id else unreadOf s1 id + 1) = R
      at key ⊢
    unfold ensureButton
    simp only [hkey, hf, hname, Bool.false_eq_true, if_false]
    split_ifs
    · exact ⟨_, rfl, rfl, key true⟩
    · exact ⟨_, rfl, rfl, key false⟩
  | some i =>
    obtain ⟨b, hb, _⟩ := findBtn_some _ _ i hf
    have h0 : unreadOf s1 id = b.unread.getD 0 := unreadOf_at s1 id i b hf hb
    have key : ∀ img : Option Bool,
        unreadOf (bumpUnread { s1 with sidebar :=
            match img with
            | some v => modifyAt (fun x => { x with hasImg := v }) i s1.sidebar
            | none => s1.sidebar } (.str id) i) id =
          if strictEq s1.currentChannel (.str id) then unreadOf s1 id else unreadOf s1 id + 1 := by
      intro img
      have hf2 : findBtn (btnMatches (.str id))
          (match img with
            | some v => modifyAt (fun x => { x with hasImg := v }) i s1.sidebar
            | none => s1.sidebar) = some i := by
        cases img with
        | none => exact hf
        | some v =>
          exact (findBtn_modifyAt (btnMatches (.str id)) (fun x => { x with hasImg := v })
            (fun x => rfl) s1.sidebar i).trans hf
      have hb2 : ∃ c, (match img with
            | some v => modifyAt (fun x => { x with hasImg := v }) i s1.sidebar
            | none => s1.sidebar)[i]? = some c ∧ c.unread = b.unread := by
        cases img with
        | none => exact ⟨b, hb, rfl⟩
        | some v =>
          exact ⟨{ b with hasImg := v },
            (getElem?_modifyAt (fun x => { x with hasImg := v }) s1.sidebar i).trans (by rw [hb]; rfl), rfl⟩
      obtain ⟨c, hc1, hc2⟩ := hb2
      unfold bumpUnread
      by_cases hc : strictEq s1.currentChannel (.str id) = true
      · simp only [hc, if_true]
        rw [unreadOf_at _ id i c hf2 hc1, hc2, h0]
      · simp only [hc, if_false]
        rw [h0]
        rw [unreadOf_at _ id i { c with unread := some (c.unread.getD 0 + 1) }
          ((findBtn_modifyAt (btnMatches (.str id))
            (fun x => { x with unread := some (x.unread.getD 0 + 1) }) (fun x => rfl) _ i).trans hf2)
          ((getElem?_modifyAt (fun x => { x with unread := some (x.unread.getD 0 + 1) }) _ i).trans
            (by rw [hc1]; rfl))]
        simp [hc2]
    generalize (if strictEq s1.currentChannel (.str id) then unreadOf s1 id else unreadOf s1 id + 1) = R
      at key ⊢
    unfold ensureButton
    simp only [hkey, hf, hname, Bool.false_eq_true, if_false]
    split_ifs
    · exact ⟨_, rfl, rfl, key (some true)⟩
    · exact ⟨_, rfl, rfl, key (some false)⟩
    · exact ⟨_, rfl, rfl, key none⟩

/-! ## Own avatar -/

theorem uploadDone_url (s : State) (url : String) (h : url ≠ "") :
    (uploadDone s (.success (some (.obj [("url", .str url)])))).meAvatar = some url ∧
    (uploadDone s (.success (some (.obj [("url", .str url)])))).storedAvatar = some url ∧
    (uploadDone s (.success (some (.obj [("url", .str url)])))).myId = s.myId := by
  have hu : getProp (.obj [("url", .str url)]) "url" = .str url := by simp [getProp, mapGet]
  have ht : truthy (.str url) = true := by simp [truthy, h]
  have hk : jsToString (.str url) = url := by simp [jsToString]
  simp only [uploadDone, isNullish, Bool.false_eq_true, if_false, hu, hk]
  split <;> split <;> simp [setMeAvatar, ht, hk]

theorem removeDone_ok (s : State) (body : Option JVal) :
    (removeDone s (.success body)).meAvatar = none ∧
    (removeDone s (.success body)).storedAvatar = none ∧
    (removeDone s (.success body)).myId = s.myId := by
  simp only [removeDone]
  split <;> simp [setMeAvatar, truthy]

theorem rosterFrame_run (now : String) (s : State) (items : List JVal)
    (hok : ∀ item ∈ items, entryOk item = true) :
    (onMessage now s (some (rosterFrame items))).state.meAvatar =
      ((rosterOwnAvatar s.myId items).map some).getD s.meAvatar ∧
    (onMessage now s (some (rosterFrame items))).state.storedAvatar =
      ((rosterOwnAvatar s.myId items).map some).getD s.storedAvatar ∧
    (onMessage now s (some (rosterFrame items))).state.myId = s.myId := by
  have htype : strictEq (getProp (rosterFrame items) "type") (.str "user_list") = true := rfl
  have husers : getProp (rosterFrame items) "users" = .arr items := rfl
  rw [onMessage_state, dispatch_user_list now s _ htype]
  unfold onUserList
  simp only [husers]
  obtain ⟨t, ht, hid, _, _, _, hme, hst⟩ := forEachUser_ok items { s with sidebar := [] } hok
  rw [ht]
  exact ⟨hme, hst, hid⟩

theorem AvatarStep_run_carries (s : State) (st : AvatarStep) (h : st.wellFormed = true) :
    (st.run s).meAvatar = ((st.carries s.myId).getD s.meAvatar) ∧
    (st.run s).storedAvatar = ((st.carries s.myId).getD s.storedAvatar) ∧
    (st.run s).myId = s.myId := by
  cases st with
  | roster now items =>
    have hok : ∀ item ∈ items, entryOk item = true := by
      simpa [AvatarStep.wellFormed, List.all_eq_true] using h
    exact rosterFrame_run now s items hok
  | uploaded url =>
    have hne : url ≠ "" := by simpa [AvatarStep.wellFormed] using h
    exact uploadDone_url s url hne
  | removed => exact removeDone_ok s none

/-- C8 (amended): last-applied-wins holds among the steps that carry a
value.  Over any sequence of roster pushes (arrays the loop gets through),
completed uploads (non-empty url) and completed removals, the displayed own
avatar and the cached one both end up as the value of the last step that
carries one: an upload carries its url, a removal carries "none", a roster
push carries the avatar of its own entry only when that avatar is truthy;
a roster push whose own entry has no avatar changes neither.  No
`user_list` frame leaves a sidebar button whose channel is the own id. -/
theorem C8_own_avatar_last_carried (s : State) (steps : List AvatarStep)
    (hsteps : ∀ st ∈ steps, st.wellFormed = true) :
    (runAvatarSteps s steps).meAvatar = lastCarried s.myId s.meAvatar steps ∧
    (runAvatarSteps s steps).storedAvatar = lastCarried s.myId s.storedAvatar steps ∧
    (∀ now data, strictEq (getProp data "type") (.str "user_list") = true →
      ∀ b ∈ (onMessage now s (some data)).state.sidebar, strictEq b.chan s.myId = false) := by
  refine ⟨?_, ?_, ?_⟩
  · induction steps generalizing s with
    | nil => rfl
    | cons st rest ih =>
      obtain ⟨h1, _, h3⟩ := AvatarStep_run_carries s st (hsteps st (List.mem_cons_self _ _))
      simp only [runAvatarSteps, lastCarried]
      rw [ih (st.run s) (fun x hx => hsteps x (List.mem_cons_of_mem _ hx)), h1, h3]
  · induction steps generalizing s with
    | nil => rfl
    | cons st rest ih =>
      obtain ⟨_, h2, h3⟩ := AvatarStep_run_carries s st (hsteps st (List.mem_cons_self _ _))
      simp only [runAvatarSteps, lastCarried]
      rw [ih (st.run s) (fun x hx => hsteps x (List.mem_cons_of_mem _ hx)), h2, h3]
  · intro now data htype
    rw [onMessage_state, dispatch_user_list now s data htype]
    exact onUserList_sidebar_forall (fun b => strictEq b.chan s.myId = false) (fun _ hb _ => hb) s data
      (fun _ _ h => h)

/-- Witness of C8 (amended): client "7" uploads "u.png", then a roster push
carries its own entry with avatar "x.png": the own avatar and the cache are
"x.png", and the sidebar has no button for "7". -/
theorem C8_own_avatar_last_carried_witness :
    (runAvatarSteps clientSeven
      [.uploaded "u.png", .roster "t2" [rosterEntryWithAvatar "7" "Mia" "x.png"]]).meAvatar = some "x.png" ∧
    (runAvatarSteps clientSeven
      [.uploaded "u.png", .roster "t2" [rosterEntryWithAvatar "7" "Mia" "x.png"]]).storedAvatar = some "x.png" ∧
    (∀ now data, strictEq (getProp data "type") (.str "user_list") = true →
      ∀ b ∈ (onMessage now clientSeven (some data)).state.sidebar, strictEq b.chan clientSeven.myId = false) :=
  C8_own_avatar_last_carried clientSeven
    [.uploaded "u.png", .roster "t2" [rosterEntryWithAvatar "7" "Mia" "x.png"]] (by decide)

/-- C8, counterexample: client "7" uploads "u.png", then a roster push
carries its own entry without avatar.  The most recently applied update says
"no avatar" (and the avatar map now holds `null` for "7"), yet the displayed
own avatar and the cache are still "u.png". -/
theorem C8_counterexample :
    mapGet (runAvatarSteps clientSeven
      [.uploaded "u.png", .roster "t2" [rosterEntry "7" "Mia"]]).avatars "7" = .null ∧
    (runAvatarSteps clientSeven
      [.uploaded "u.png", .roster "t2" [rosterEntry "7" "Mia"]]).meAvatar = some "u.png" ∧
    (runAvatarSteps clientSeven
      [.uploaded "u.png", .roster "t2" [rosterEntry "7" "Mia"]]).storedAvatar = some "u.png" :=
  ⟨rfl, rfl, rfl⟩

/-- Witness of C1 (amended): at client B (own id 2) the message of user 1
addressed to user 2 resolves to channel key 1 and ends up alone in the log of
channel 1. -/
theorem C1_private_message_routed_witness :
    mapGet (onMessage "t1" clientB (some hiMessage)).state.messages "1" = .arr [hiMessage] ∧
    ∀ k, k ≠ "1" →
      mapGet (onMessage "t1" clientB (some hiMessage)).state.messages k = mapGet clientB.messages k :=
  C1_private_message_routed "t1" clientB hiMessage (.num 1) [] rfl rfl rfl rfl rfl rfl

/-- C1, counterexample: at client "7" a `history` frame stored the string
"oops" under "p"; the next private message of "p" resolves to the key "p",
which differs from the own id, yet `push` throws: the error is logged and
what is stored under "p" is still "oops", not a log ending with the message. -/
theorem C1_counterexample :
    plainKey (.str "p") = true ∧
    strictEq (.str "p") sevenBrokenLog.myId = false ∧
    (onMessage "t3" sevenBrokenLog (some (privateFrame "p" "Pia" "7" "hello"))).logged = true ∧
    mapGet (onMessage "t3" sevenBrokenLog (some (privateFrame "p" "Pia" "7" "hello"))).state.messages "p"
      = .str "oops" :=
  ⟨rfl, rfl, rfl, rfl⟩

/-- Witness of C7 (amended): an empty snapshot for "all" empties the "all" log
of client "7" (which held the join notice) and, "all" being active, is
followed by one more call of `renderChannel`. -/
theorem C7_history_replaces_log_witness :
    mapGet (onMessage "t1" clientSeven (some (historyFrame (.str "all") (.arr [])))).state.messages "all"
      = .arr [] ∧
    (∀ k, k ≠ "all" →
      mapGet (onMessage "t1" clientSeven (some (historyFrame (.str "all") (.arr [])))).state.messages k
        = mapGet clientSeven.messages k) ∧
    (onMessage "t1" clientSeven (some (historyFrame (.str "all") (.arr [])))).state.renders =
      clientSeven.renders ++ [.str "all"] :=
  C7_history_replaces_log "t1" clientSeven (historyFrame (.str "all") (.arr [])) (.str "all") []
    rfl rfl rfl rfl rfl

/-- C7, counterexample: a `history` frame for the channel key 0 carrying one
message replaces the "all" log of client "7" and stores nothing under "0". -/
theorem C7_counterexample :
    mapGet (onMessage "t1" clientSeven (some (historyFrame (.num 0) (.arr [hiMessage])))).state.messages "all"
      = .arr [hiMessage] ∧
    mapHas (onMessage "t1" clientSeven (some (historyFrame (.num 0) (.arr [hiMessage])))).state.messages
      (jsToString (.num 0)) = false :=
  ⟨rfl, rfl⟩

/-- C2, the code at the failing input: client "7" has one unread message of
peer "p"; the next roster snapshot still lists "p", and afterwards the button
of "p" is a new one without `dataset.unread`, so its counter reads 0. -/
theorem C2_roster_push_drops_unread :
    unreadOf sevenUnread "p" = 1 ∧
    rosterHas "p" [rosterEntry "p" "Pia"] = true ∧
    (onMessage "t3" sevenUnread (some (rosterFrame [rosterEntry "p" "Pia"]))).state.sidebar =
      [{ chan := .str "p", dataId := "p", unread := none, hasImg := false }] ∧
    unreadOf (onMessage "t3" sevenUnread (some (rosterFrame [rosterEntry "p" "Pia"]))).state "p" = 0 :=
  ⟨rfl, rfl, rfl, rfl⟩

/-- C3, the code at the failing input: after `joined` has set the own id "7",
a `history` frame for the channel "7" installs a log keyed by the own id. -/
theorem C3_history_installs_own_log :
    (runFrames (freshSession "Mia")
        [("t0", some (joinedFrame (.str "7") "Mia")),
         ("t1", some (historyFrame (.str "7") (.arr [])))]).myId = .str "7" ∧
    mapHas (runFrames (freshSession "Mia")
        [("t0", some (joinedFrame (.str "7") "Mia")),
         ("t1", some (historyFrame (.str "7") (.arr [])))]).messages "7" = true :=
  ⟨rfl, rfl⟩

/-- C4, the code at the failing input: at client B (own id 2, "all" active)
the private message of user 1 arrives twice.  The lookup by `dataset.id`
never matches the number 1, so the sidebar holds two buttons for "1", each
with `dataset.unread` 1: no counter of channel 1 reaches 2. -/
theorem C4_numeric_id_never_accumulates :
    clientB.currentChannel = .str "all" ∧
    clientBTwice.sidebar =
      [{ chan := .num 1, dataId := "1", unread := some 1, hasImg := false },
       { chan := .num 1, dataId := "1", unread := some 1, hasImg := false }] :=
  ⟨rfl, rfl⟩

end HSSChat
